import Mathlib

/-!
Verification of `tensor2tensor/envs/env_problem.py` (class `EnvProblem`):
a batched RL environment wrapper that records trajectories and exports them
as sharded datasets.  We shallowly embed the relevant functions of the
source file and prove/refute the specification claims about them.

Conventions of the embedding:
* numpy float values become `ℚ` (with an explicit extended type `FVal`
  where infinities matter), integers become `ℤ`/`ℕ`;
* Python `None` becomes `Option.none`; Python truthiness on numbers /
  `None` is embedded by explicit helper predicates;
* raising an exception becomes returning `Except.error`; the state passed
  in is returned only on success, mirroring that an assertion fires before
  any mutation of state;
* external collaborators that are not part of the source file
  (`trajectory.BatchTrajectory`, `gym_spaces_utils`, serialization) are
  modelled from the specification, and are marked as such.
-/

namespace EnvProblem

/-- A single time-step of a trajectory, as stored by the trajectory store
(`trajectory.TimeStep`): observation, optional action (the synthetic
terminal step has none), optional raw and processed rewards (the initial
step has none), and the done flag.  Observations are always present: the
store only ever creates a time-step seeded with an observation (this is
asserted by the source at export time). -/
structure TimeStep where
  observation : ℤ
  action : Option ℤ
  raw_reward : Option ℚ
  processed_reward : Option ℤ
  done : Bool
  deriving Repr, DecidableEq

/-- One flat record yielded by `_generate_time_steps`: a dict with fields
`timestep`, `action`, `raw_reward`, `reward`, `done`, `observation`,
each holding a list (as the source wraps scalars in singleton lists). -/
structure Record where
  timestep : List ℕ
  action : List ℤ
  raw_reward : List ℚ
  reward : List ℤ
  done : List ℤ
  observation : List ℤ
  deriving Repr, DecidableEq

/-- Python truthiness of an optional integer: `None` and `0` are falsy.
Embeds `if time_step.action:` in `_generate_time_steps`. -/
def pyTruthyInt : Option ℤ → Bool
  | none => false
  | some a => a != 0

/-- Python truthiness of an optional rational: `None` and `0.0` are falsy.
Embeds `if not raw_reward:` in `_generate_time_steps`. -/
def pyTruthyRat : Option ℚ → Bool
  | none => false
  | some q => q != 0

/-- Embeds the body of the inner loop of `_generate_time_steps` for one
time-step at position `index` of its trajectory.  `encode` stands for
`gym_spaces_utils.gym_space_encode` on the action space (an external
helper, kept abstract), `encodeObs` likewise for the observation space,
and `sample` stands for the value returned by `action_space.sample()`
in the placeholder branch.  The py3 `int`/`float` coercions of the source
are identities in this model. -/
def genRecord (encode : ℤ → List ℤ) (encodeObs : ℤ → List ℤ) (sample : ℤ)
    (index : ℕ) (ts : TimeStep) : Record :=
  let raw_reward : ℚ := if pyTruthyRat ts.raw_reward then ts.raw_reward.getD 0 else 0
  let processed_reward : ℤ :=
    if pyTruthyInt ts.processed_reward then ts.processed_reward.getD 0 else 0
  let action : List ℤ :=
    if pyTruthyInt ts.action then encode (ts.action.getD 0) else [sample]
  { timestep := [index]
    action := action
    raw_reward := [raw_reward]
    reward := [processed_reward]
    done := [if ts.done then 1 else 0]
    observation := encodeObs ts.observation }

/-- `num_time_steps` of a trajectory: the number of stored time-steps. -/
def numTimeSteps (t : List TimeStep) : ℕ := t.length

/-- Embeds the per-trajectory part of `_generate_time_steps`: a trajectory
with at most one time-step is skipped (`continue`), otherwise one record
per time-step is yielded, with `enumerate` providing the index. -/
def genTrajectory (encode encodeObs : ℤ → List ℤ) (sample : ℤ)
    (t : List TimeStep) : List Record :=
  if numTimeSteps t ≤ 1 then []
  else t.enum.map (fun p => genRecord encode encodeObs sample p.1 p.2)

/-- Embeds `_generate_time_steps` on a list of trajectories: the records
yielded for each trajectory, in trajectory order. -/
def genTimeSteps (encode encodeObs : ℤ → List ℤ) (sample : ℤ)
    (ts : List (List TimeStep)) : List Record :=
  (ts.map (genTrajectory encode encodeObs sample)).flatten

/-- `np.clip(a, mn, mx)`: equivalent to `min mx (max mn a)` (the upper
bound is applied last; numpy performs no check that `mn ≤ mx`). -/
def npClip (a mn mx : ℚ) : ℚ := min mx (max mn a)

/-- `np.around(x, decimals=0)`: round half to even, numpy's rounding mode. -/
def npRound (q : ℚ) : ℤ :=
  if q - ⌊q⌋ < 1/2 then ⌊q⌋
  else if 1/2 < q - ⌊q⌋ then ⌊q⌋ + 1
  else if Even ⌊q⌋ then ⌊q⌋ else ⌊q⌋ + 1

/-- Embeds `process_rewards`: clip each raw reward to the configured
reward range, round to the nearest integer (half to even) and cast to an
integral type.  A numpy array of rewards is a list, the `(mn, mx)`
arguments are the components of `self._reward_range`. -/
def process_rewards (mn mx : ℚ) (rewards : List ℚ) : List ℤ :=
  rewards.map (fun r => npRound (npClip r mn mx))

/-- An IEEE-754-style extended value, for the reward-range bounds which the
source initializes to `(-np.inf, np.inf)` by default. -/
inductive FVal where
  | nan
  | negInf
  | fin (q : ℚ)
  | posInf
  deriving Repr, DecidableEq

/-- IEEE addition on extended values, in the cases that arise for
`max_reward - min_reward + 1`. -/
def FVal.add : FVal → FVal → FVal
  | .nan, _ => .nan
  | _, .nan => .nan
  | .posInf, .negInf => .nan
  | .negInf, .posInf => .nan
  | .posInf, _ => .posInf
  | _, .posInf => .posInf
  | .negInf, _ => .negInf
  | _, .negInf => .negInf
  | .fin a, .fin b => .fin (a + b)

/-- IEEE subtraction on extended values. -/
def FVal.sub : FVal → FVal → FVal
  | .nan, _ => .nan
  | _, .nan => .nan
  | .posInf, .posInf => .nan
  | .negInf, .negInf => .nan
  | .posInf, _ => .posInf
  | .negInf, _ => .negInf
  | .fin _, .posInf => .negInf
  | .fin _, .negInf => .posInf
  | .fin a, .fin b => .fin (a - b)

/-- Embeds `is_reward_range_finite`: the source tests
`min_reward != -np.inf and max_reward != np.inf` (and nothing more). -/
def is_reward_range_finite (mn mx : FVal) : Bool :=
  mn != FVal.negInf && mx != FVal.posInf

/-- Both bounds actually finite — the spec's wording for C7, for
comparison with the source's `is_reward_range_finite` check. -/
def bothBoundsFinite (mn mx : FVal) : Bool :=
  match mn, mx with
  | .fin _, .fin _ => true
  | _, _ => false

/-- Embeds the `num_rewards` property: `None` when
`is_reward_range_finite` fails or the processed rewards are not discrete,
otherwise `max_reward - min_reward + 1`.  `discrete` stands for
`is_processed_rewards_discrete` (always `true` for the base class, but
overridable by subclasses, so kept as a parameter). -/
def num_rewards (mn mx : FVal) (discrete : Bool) : Option FVal :=
  if !is_reward_range_finite mn mx then none
  else if !discrete then none
  else some ((mx.sub mn).add (FVal.fin 1))

/-- Python's extended slice `l[start::step]` (with `step ≥ 1`): the
elements of `l` at indices `start, start + step, start + 2·step, …`. -/
def pySlice (l : List α) (start step : ℕ) : List α :=
  (List.range l.length).filterMap
    (fun j => if start ≤ j ∧ step ∣ (j - start) then l[j]? else none)

/-- Embeds the shard assignment of `generate_data`: with `S` shard files
and completed-trajectory list `completed` (of length `N`), the loop
enumerates `files_list[:N]` — that is, file indices `i < min S N` — and
writes `completed[i::S]` to file `i`; files beyond that receive nothing. -/
def shardContent (completed : List α) (S i : ℕ) : List α :=
  if i < min S completed.length then pySlice completed i S else []

/-- For `i < S`, a natural `j` lies in the arithmetic progression
`i, i + S, i + 2S, …` exactly when `j % S = i`. -/
lemma slice_cond_iff_mod {S i : ℕ} (hiS : i < S) (j : ℕ) :
    (i ≤ j ∧ S ∣ (j - i)) ↔ j % S = i := by
  constructor
  · rintro ⟨hij, k, hk⟩
    have hj : j = i + S * k := by omega
    subst hj
    simp [Nat.add_mul_mod_self_left, Nat.mod_eq_of_lt hiS]
  · intro h
    have hle : i ≤ j := h ▸ Nat.mod_le j S
    refine ⟨hle, j / S, ?_⟩
    have := Nat.div_add_mod j S
    omega

/-- The slice `completed[i::S]` equals, for `i < S`, the selection of the
positions congruent to `i` modulo `S`. -/
lemma shardContent_eq_filterMap {α : Type _} (completed : List α) {S i : ℕ}
    (hiS : i < S) :
    shardContent completed S i =
      (List.range completed.length).filterMap
        (fun j => if j % S = i then completed[j]? else none) := by
  unfold shardContent pySlice
  by_cases hi : i < min S completed.length
  · rw [if_pos hi]
    apply List.filterMap_congr
    intro j _
    simp only [slice_cond_iff_mod hiS j]
  · rw [if_neg hi]
    have hN : completed.length ≤ i := by omega
    symm
    rw [List.filterMap_eq_nil_iff]
    intro j hj
    rw [List.mem_range] at hj
    have : j % S ≠ i := by
      have := Nat.mod_le j S
      omega
    simp [this]

/-- Length of a guarded `filterMap` over `range N` where the guarded value
is always present: it is the number of indices satisfying the guard. -/
lemma length_filterMap_guard {α : Type _} (N : ℕ) (p : ℕ → Prop) [DecidablePred p]
    (f : ℕ → Option α) (hf : ∀ j < N, p j → (f j).isSome) :
    ((List.range N).filterMap (fun j => if p j then f j else none)).length
      = ((List.range N).filter (fun j => decide (p j))).length := by
  induction N with
  | zero => simp
  | succ n ih =>
    rw [List.range_succ, List.filterMap_append, List.filter_append,
      List.length_append, List.length_append,
      ih (fun j hj hp => hf j (Nat.lt_succ_of_lt hj) hp)]
    by_cases hp : p n
    · have hs := hf n (Nat.lt_succ_self n) hp
      rcases Option.isSome_iff_exists.mp hs with ⟨a, ha⟩
      simp [hp, ha]
    · simp [hp]

/-- The number of `j < N` with `j % S = i` (for `i < S`) is
`N / S`, plus one when `i < N % S`. -/
lemma count_mod_eq (S i : ℕ) (hiS : i < S) (N : ℕ) :
    ((List.range N).filter (fun j => decide (j % S = i))).length
      = N / S + (if i < N % S then 1 else 0) := by
  have hS : 0 < S := Nat.lt_of_le_of_lt (Nat.zero_le i) hiS
  induction N with
  | zero => simp
  | succ n ih =>
    rw [List.range_succ, List.filter_append, List.length_append, ih]
    have hr : n % S < S := Nat.mod_lt n hS
    have hnd : S * (n / S) + n % S = n := Nat.div_add_mod n S
    have hfil : (List.filter (fun j => decide (j % S = i)) [n]).length
        = if n % S = i then 1 else 0 := by
      by_cases hin : n % S = i <;> simp [hin]
    rw [hfil]
    by_cases hd : n % S + 1 = S
    · have h1 : n + 1 = S * (n / S + 1) := by rw [Nat.mul_succ]; omega
      have hdvd : S ∣ n + 1 := ⟨n / S + 1, h1⟩
      have hm : (n + 1) % S = 0 := by rw [h1, Nat.mul_mod_right]
      rw [Nat.succ_div_of_dvd hdvd, hm]
      split_ifs <;> omega
    · have hm : (n + 1) % S = n % S + 1 := by
        have h1 : n + 1 = (n % S + 1) + S * (n / S) := by omega
        rw [h1, Nat.add_mul_mod_self_left, Nat.mod_eq_of_lt (by omega)]
      have hdvd : ¬ S ∣ n + 1 := by
        rintro ⟨k, hk⟩
        have h0 : (n + 1) % S = 0 := by rw [hk, Nat.mul_mod_right]
        omega
      rw [Nat.succ_div_of_not_dvd hdvd, hm]
      split_ifs <;> omega

/-- Number of trajectories written to shard `i < S`: `N / S`, plus one for
the first `N % S` shards. -/
lemma shardContent_length {α : Type _} (completed : List α) {S i : ℕ} (hiS : i < S) :
    (shardContent completed S i).length
      = completed.length / S + (if i < completed.length % S then 1 else 0) := by
  rw [shardContent_eq_filterMap completed hiS,
    length_filterMap_guard completed.length (fun j => j % S = i)
      (fun j => completed[j]?)
      (fun j hj _ => by simp [List.getElem?_eq_getElem hj])]
  exact count_mod_eq S i hiS completed.length

/-- A scripted underlying gym environment: `reset` returns `resetObs`, the
`k`-th `step` returns the `k`-th entry of `script` as
`(observation, reward, done)`.  The counters record how often `reset` and
`step` were called, so the theorems can talk about which envs were
touched. -/
structure MockEnv where
  resetObs : ℤ
  script : List (ℤ × ℚ × Bool)
  stepCount : ℕ
  resetCount : ℕ
  deriving Repr, DecidableEq, Inhabited

/-- `env.reset()` of a scripted environment. -/
def MockEnv.reset (e : MockEnv) : ℤ × MockEnv :=
  (e.resetObs, { e with resetCount := e.resetCount + 1 })

/-- `env.step(action)` of a scripted environment (the scripted outcome
does not depend on the action). -/
def MockEnv.stepEnv (e : MockEnv) (_a : ℤ) : (ℤ × ℚ × Bool) × MockEnv :=
  (e.script.getD e.stepCount (0, 0, false), { e with stepCount := e.stepCount + 1 })

/-- Modelled from the spec: the trajectory store
(`trajectory.BatchTrajectory`, whose source file is not part of this
repository's sources) — a fixed-size collection of per-slot active
trajectories plus a list of completed trajectories. -/
structure BatchTraj where
  slots : List (List TimeStep)
  completed : List (List TimeStep)
  deriving Repr, DecidableEq

/-- Modelled from the spec: `BatchTrajectory.reset(indices, observations)`
closes out any in-progress trajectory at each given slot (if non-trivial,
i.e. more than one time-step, it moves to the completed list) and starts a
fresh trajectory seeded with the initial observation. -/
def BatchTraj.resetSlots (bt : BatchTraj) (indices : List ℕ)
    (observations : List ℤ) : BatchTraj :=
  (indices.zip observations).foldl
    (fun acc p =>
      let slot := acc.slots.getD p.1 []
      { slots := acc.slots.set p.1 [⟨p.2, none, none, none, false⟩]
        completed := if 2 ≤ slot.length then acc.completed ++ [slot]
                     else acc.completed })
    bt

/-- Attaches an action to the last time-step of a trajectory (the stored
trajectory holds the action taken *from* each time-step; the newly
appended time-step has no action yet). -/
def setLastAction : List TimeStep → ℤ → List TimeStep
  | [], _ => []
  | [ts], a => [{ ts with action := some a }]
  | ts :: rest, a => ts :: setLastAction rest a

/-- Modelled from the spec: `BatchTrajectory.step` appends one time-step
per slot, carrying the new observation, the raw and processed rewards and
the done flag of the transition; the action that caused the transition is
recorded on the previous last time-step (the synthetic terminal time-step
is the one left without an action). -/
def BatchTraj.stepSlots (bt : BatchTraj) (observations : List ℤ)
    (raw : List ℚ) (processed : List ℤ) (dones : List Bool)
    (actions : List ℤ) : BatchTraj :=
  { bt with
    slots := (List.range bt.slots.length).map (fun i =>
      setLastAction (bt.slots.getD i []) (actions.getD i 0) ++
        [⟨observations.getD i 0, none, some (raw.getD i 0),
          some (processed.getD i 0), dones.getD i false⟩]) }

/-- Modelled from the spec: `complete_all_trajectories` force-closes every
still-active (non-trivial) trajectory, moving it to the completed list
exactly once, regardless of done status. -/
def BatchTraj.completeAll (bt : BatchTraj) : BatchTraj :=
  { slots := bt.slots.map (fun _ => [])
    completed := bt.completed ++ bt.slots.filter (fun t => 2 ≤ t.length) }

/-- The mutable state of an `EnvProblem` object: the (optional, until
initialized) list of environments, the (optional) trajectory store, the
configured reward range and the agent id.  The reward range is kept as a
pair of rationals here; the extended-value behaviour of `num_rewards` is
analysed separately on `FVal`. -/
structure EPState where
  envs : Option (List MockEnv)
  traj : Option BatchTraj
  rewardRange : ℚ × ℚ
  agentId : String
  deriving Repr, DecidableEq

/-- Embeds `_reset(indices)`: asserts the common preconditions
(`self._envs` truthy and a list), then resets the env at each given index
and stacks the returned observations. -/
def rawReset (st : EPState) (indices : List ℕ) :
    Except String (EPState × List ℤ) :=
  match st.envs with
  | none => .error "AssertionError: assert self._envs"
  | some envs =>
    if envs.isEmpty then .error "AssertionError: assert self._envs"
    else if indices.any (fun i => envs.length ≤ i) then
      .error "IndexError: list index out of range"
    else
      let obs := indices.map (fun i => ((envs.getD i default).reset).1)
      let envs' := indices.foldl
        (fun es i => es.set i ((es.getD i default).reset).2) envs
      .ok ({ st with envs := some envs' }, obs)

/-- The body of `reset` past the empty-indices early return: the raw
reset, the (identity) observation processing, and the trajectory-store
recording. -/
def resetCore (st : EPState) (indices : List ℕ) :
    Except String (EPState × Option (List ℤ)) :=
  match rawReset st indices with
  | .error e => .error e
  | .ok (st', obs) =>
    match st'.traj with
    | none => .error "AttributeError: NoneType has no attribute reset"
    | some bt =>
      .ok ({ st' with traj := some (bt.resetSlots indices obs) }, some obs)

/-- Embeds `reset(indices)`: `None` indices become `arange(batch_size)` of
the trajectory store; an empty index array is a warned no-op returning
`None`; otherwise the envs are reset, observations processed (identity)
and recorded. -/
def reset (st : EPState) (indices : Option (List ℕ)) :
    Except String (EPState × Option (List ℤ)) :=
  match indices with
  | some idx =>
    if idx.isEmpty then .ok (st, none) else resetCore st idx
  | none =>
    match st.traj with
    | none => .error "AttributeError: NoneType has no attribute batch_size"
    | some bt =>
      let idx := List.range bt.slots.length
      if idx.isEmpty then .ok (st, none) else resetCore st idx

/-- Embeds `_step(actions)`: asserts the common preconditions and
`len(actions) == len(self._envs)` *before* stepping any environment, then
steps each env with its action and stacks observations, raw rewards and
dones (infos are not modelled). -/
def rawStep (st : EPState) (actions : List ℤ) :
    Except String (EPState × List ℤ × List ℚ × List Bool) :=
  match st.envs with
  | none => .error "AssertionError: assert self._envs"
  | some envs =>
    if envs.isEmpty then .error "AssertionError: assert self._envs"
    else if actions.length ≠ envs.length then
      .error "AssertionError: assert len(actions) == len(self._envs)"
    else
      let stepped := (envs.zip actions).map (fun p => p.1.stepEnv p.2)
      .ok ({ st with envs := some (stepped.map (·.2)) },
        stepped.map (·.1.1), stepped.map (·.1.2.1), stepped.map (·.1.2.2))

/-- Embeds `step(actions)`: the raw step, reward processing, (identity)
observation processing and trajectory recording; returns the processed
observations, processed rewards and dones. -/
def step (st : EPState) (actions : List ℤ) :
    Except String (EPState × List ℤ × List ℤ × List Bool) :=
  match rawStep st actions with
  | .error e => .error e
  | .ok (st', obs, raw, dones) =>
    let processed := process_rewards st'.rewardRange.1 st'.rewardRange.2 raw
    match st'.traj with
    | none => .error "AttributeError: NoneType has no attribute step"
    | some bt =>
      .ok ({ st' with
              traj := some (bt.stepSlots obs raw processed dones actions) },
        obs, processed, dones)

/-- Embeds the `agent_id` setter: the string form of the new value is
rejected (raising, leaving the stored id unchanged) when it contains
`-`; otherwise it is stored.  The second component is the raised error,
if any. -/
def setAgentId (st : EPState) (v : String) : EPState × Option String :=
  if v.data.contains '-' then (st, some "ValueError: agent_id contains -")
  else ({ st with agentId := v }, none)

/-- Half-to-even rounding lands on a nearest integer: the result is within
one half of the argument. -/
lemma npRound_nearest (q : ℚ) : |(npRound q : ℚ) - q| ≤ 1/2 := by
  unfold npRound
  have h0 : (⌊q⌋ : ℚ) ≤ q := Int.floor_le q
  have h1 : q < ⌊q⌋ + 1 := Int.lt_floor_add_one q
  split_ifs with hf hg he
  · rw [abs_le]
    constructor <;> linarith
  · rw [abs_le]
    push_cast
    constructor <;> linarith
  · rw [abs_le]
    constructor <;> linarith
  · rw [abs_le]
    push_cast
    constructor <;> linarith

/-- Folding `set i (f ·[i])` over the first `n` indices rewrites the first
`n` entries of the list with `f` and leaves the rest. -/
lemma foldl_set_map {α : Type _} [Inhabited α] (f : α → α) (l : List α) (n : ℕ) :
    n ≤ l.length →
    (List.range n).foldl (fun es i => es.set i (f (es.getD i default))) l
      = (l.take n).map f ++ l.drop n := by
  induction n with
  | zero => intro _; simp
  | succ m ih =>
    intro hn
    have hm : m < l.length := hn
    rw [List.range_succ, List.foldl_append, ih (Nat.le_of_lt hm)]
    simp only [List.foldl_cons, List.foldl_nil]
    have hlen : ((l.take m).map f).length = m := by
      rw [List.length_map, List.length_take]; omega
    have hdrop : l.drop m = l[m] :: l.drop (m + 1) := List.drop_eq_getElem_cons hm
    rw [List.getD_append_right _ _ _ _ hlen.le, hlen, Nat.sub_self, hdrop,
      List.getD_cons_zero, List.set_append_right _ _ hlen.le, hlen, Nat.sub_self,
      List.set_cons_zero, ← List.take_concat_get' l m hm, List.map_append]
    simp

/-! ## Claim theorems -/

/-- C1: for every list of completed trajectories passed to export, a
trajectory with at most one time-step contributes no records, and a
trajectory with `n ≥ 2` time-steps contributes exactly `n` records whose
`timestep` field values are `[0], [1], …, [n-1]` in order (each
trajectory's contribution being its block of the concatenated output). -/
theorem genTimeSteps_skip_and_count (encode encodeObs : ℤ → List ℤ) (sample : ℤ)
    (trajs : List (List TimeStep)) (t : List TimeStep) :
    genTimeSteps encode encodeObs sample trajs
      = (trajs.map (genTrajectory encode encodeObs sample)).flatten ∧
    (numTimeSteps t ≤ 1 → genTrajectory encode encodeObs sample t = []) ∧
    (2 ≤ numTimeSteps t →
      (genTrajectory encode encodeObs sample t).length = numTimeSteps t ∧
      (genTrajectory encode encodeObs sample t).map Record.timestep
        = (List.range (numTimeSteps t)).map (fun i => [i])) := by
  refine ⟨rfl, fun h => by rw [genTrajectory, if_pos h], fun h => ?_⟩
  have hn : ¬ (numTimeSteps t ≤ 1) := by omega
  rw [genTrajectory, if_neg hn]
  constructor
  · rw [List.length_map, List.enum_length]
    rfl
  · rw [List.map_map]
    have h1 : (Record.timestep ∘
        fun p : ℕ × TimeStep => genRecord encode encodeObs sample p.1 p.2)
          = ((fun i => [i]) ∘ Prod.fst) := rfl
    rw [h1, ← List.map_map, List.enum_map_fst]
    rfl

/-- Witness for C1 on concrete trajectories: a 1-step trajectory yields
nothing, a 2-step trajectory yields two records with timesteps 0 and 1. -/
theorem genTimeSteps_skip_and_count_witness :
    genTrajectory (fun a => [a]) (fun o => [o]) 0
        [⟨3, none, none, none, false⟩] = [] ∧
    ((genTrajectory (fun a => [a]) (fun o => [o]) 0
        [⟨3, some 1, none, none, false⟩, ⟨4, none, some 1, some 1, true⟩]).length = 2 ∧
      (genTrajectory (fun a => [a]) (fun o => [o]) 0
        [⟨3, some 1, none, none, false⟩, ⟨4, none, some 1, some 1, true⟩]).map
          Record.timestep = (List.range 2).map (fun i => [i])) :=
  ⟨(genTimeSteps_skip_and_count (fun a => [a]) (fun o => [o]) 0 [] _).2.1
      (by decide),
   (genTimeSteps_skip_and_count (fun a => [a]) (fun o => [o]) 0 [] _).2.2
      (by decide)⟩

/-- The failing input for C2: a two-step trajectory whose first time-step
has the *present* action `0` (a legal action of any discrete space). -/
def zeroActionTraj : List TimeStep :=
  [⟨5, some 0, none, none, false⟩, ⟨6, none, some 1, some 1, true⟩]

/-- C2 (code bug): with the identity encoding and placeholder sample `7`,
the exported record of the *first* time-step — whose recorded action is
present and equal to `0` — carries the sampled placeholder `[7]` instead
of the encoding `[0]` of the recorded action, because the source tests
`if time_step.action:` (Python truthiness) rather than absence: the action
`0` is falsy.  The second record is the synthetic terminal step, for which
the placeholder is intended. -/
theorem genRecord_action_zero_bug :
    (genTrajectory (fun a => [a]) (fun o => [o]) 7 zeroActionTraj).map
        Record.action = [[7], [7]] ∧
    zeroActionTraj.map TimeStep.action = [some 0, none] ∧
    (fun a : ℤ => [a]) 0 = [0] := by
  refine ⟨?_, rfl, rfl⟩
  decide

/-- C4: `process_rewards` preserves the shape, sends each entry to the
half-to-even rounding of its clipped value, clips each out-of-range value
to the *nearer* bound, leaves in-range values unclipped, and the rounded
result is a nearest integer (within 1/2) of the clipped value.  The
result type `ℤ` embeds the cast to an integral dtype; the transform is a
pure function of the reward range and the input, so it is deterministic
and stateless by construction. -/
theorem process_rewards_pointwise (mn mx : ℚ) (hr : mn ≤ mx) (rewards : List ℚ)
    (i : ℕ) (v : ℚ) (hv : rewards[i]? = some v) :
    (process_rewards mn mx rewards).length = rewards.length ∧
    (process_rewards mn mx rewards)[i]? = some (npRound (npClip v mn mx)) ∧
    (v < mn → npClip v mn mx = mn ∧ |mn - v| ≤ |mx - v|) ∧
    (mx < v → npClip v mn mx = mx ∧ |mx - v| ≤ |mn - v|) ∧
    (mn ≤ v → v ≤ mx → npClip v mn mx = v) ∧
    |(npRound (npClip v mn mx) : ℚ) - npClip v mn mx| ≤ 1/2 := by
  refine ⟨by simp [process_rewards], ?_, ?_, ?_, ?_, npRound_nearest _⟩
  · rw [process_rewards, List.getElem?_map, hv]
    rfl
  · intro h
    constructor
    · rw [npClip, max_eq_left h.le, min_eq_right hr]
    · rw [abs_of_nonneg (by linarith), abs_of_nonneg (by linarith)]
      linarith
  · intro h
    constructor
    · rw [npClip, max_eq_right (by linarith), min_eq_left (by linarith)]
    · rw [abs_of_nonpos (by linarith), abs_of_nonpos (by linarith)]
      linarith
  · intro h1 h2
    rw [npClip, max_eq_right h1, min_eq_right h2]

/-- Witness for C4: the reward `7` with range `[0, 5]` is clipped to `5`
and returned as the integer `5`. -/
theorem process_rewards_pointwise_witness :
    (process_rewards 0 5 [(7:ℚ)]).length = 1 ∧
    (process_rewards 0 5 [(7:ℚ)])[0]? = some 5 := by
  have h := process_rewards_pointwise 0 5 (by norm_num) [7] 0 7 rfl
  refine ⟨by simpa using h.1, ?_⟩
  rw [h.2.1]
  norm_num [npClip, npRound]

/-- C7 counterexample: with reward range `(3, -∞)` the source's
`is_reward_range_finite` check (`min != -inf and max != inf`) passes even
though the bounds are *not* both finite, and `num_rewards` returns the
IEEE value `-∞`, not `None` — refuting the claim that in every case other
than both-bounds-finite-and-discrete the result is `None`. -/
theorem num_rewards_infinite_bound_not_none :
    num_rewards (FVal.fin 3) FVal.negInf true = some FVal.negInf ∧
    bothBoundsFinite (FVal.fin 3) FVal.negInf = false ∧
    is_reward_range_finite (FVal.fin 3) FVal.negInf = true := by
  refine ⟨rfl, rfl, rfl⟩

/-- C7 amended: `num_rewards` returns `None` exactly when
`min_reward = -∞`, or `max_reward = +∞`, or the processed rewards are not
discrete; in all other cases it returns `max_reward - min_reward + 1`
(IEEE arithmetic), which for genuinely finite bounds `a`, `b` is the
distinct-reward count `b - a + 1`. -/
theorem num_rewards_amended (mn mx : FVal) (discrete : Bool) :
    (∀ a b : ℚ, mn = FVal.fin a → mx = FVal.fin b → discrete = true →
      num_rewards mn mx discrete = some (FVal.fin (b - a + 1))) ∧
    (num_rewards mn mx discrete = none ↔
      (mn = FVal.negInf ∨ mx = FVal.posInf ∨ discrete = false)) := by
  constructor
  · rintro a b rfl rfl rfl
    rfl
  · cases mn <;> cases mx <;> cases discrete <;>
      simp [num_rewards, is_reward_range_finite, FVal.sub, FVal.add]

/-- Witness for C7's amended statement at concrete bounds. -/
theorem num_rewards_amended_witness :
    num_rewards (FVal.fin 2) (FVal.fin 5) true = some (FVal.fin 4) ∧
    num_rewards FVal.negInf (FVal.fin 5) true = none :=
  ⟨by
    have h := (num_rewards_amended (FVal.fin 2) (FVal.fin 5) true).1 2 5 rfl rfl rfl
    rw [show (5:ℚ) - 2 + 1 = 4 by norm_num] at h
    exact h,
   (num_rewards_amended FVal.negInf (FVal.fin 5) true).2.mpr (Or.inl rfl)⟩

/-- C9: setting `agent_id` to a string form containing `-` raises and
leaves the whole state (in particular the stored agent id) unchanged;
any other string form is stored verbatim, with no error. -/
theorem agent_id_setter_spec (st : EPState) (v : String) :
    (v.data.contains '-' = true →
      setAgentId st v = (st, some "ValueError: agent_id contains -")) ∧
    (v.data.contains '-' = false →
      setAgentId st v = ({ st with agentId := v }, none)) := by
  constructor
  · intro h
    rw [setAgentId, if_pos h]
  · intro h
    rw [setAgentId, if_neg (by rw [h]; exact Bool.false_ne_true)]

/-- A state that has not been initialized: no envs, no trajectory store. -/
def stNoEnvs : EPState := ⟨none, none, (0, 0), "default"⟩

/-- Witness for C9 at a concrete state and concrete strings. -/
theorem agent_id_setter_witness :
    setAgentId stNoEnvs "a-b" = (stNoEnvs, some "ValueError: agent_id contains -") ∧
    setAgentId stNoEnvs "agent7" = ({ stNoEnvs with agentId := "agent7" }, none) :=
  ⟨(agent_id_setter_spec stNoEnvs "a-b").1 (by decide),
   (agent_id_setter_spec stNoEnvs "agent7").2 (by decide)⟩

/-- C10: `reset` called with an empty (but non-`None`) index array is a
no-op — it returns `None` and the state (envs and trajectory store alike)
is returned untouched, whether or not the pool is initialized. -/
theorem reset_empty_indices_noop (st : EPState) :
    reset st (some []) = .ok (st, none) := rfl

/-- C6: calling `step` before the environment pool is initialized
(`self._envs` is `None`) raises immediately, as does an action batch whose
length differs from the pool size; in both cases no environment is stepped
and nothing is recorded (the error carries no successor state). -/
theorem step_asserts_preconditions (st : EPState) (actions : List ℤ) :
    (st.envs = none → step st actions = .error "AssertionError: assert self._envs") ∧
    (∀ envs : List MockEnv, st.envs = some envs → envs ≠ [] →
      actions.length ≠ envs.length →
      step st actions
        = .error "AssertionError: assert len(actions) == len(self._envs)") := by
  constructor
  · intro h
    simp [step, rawStep, h]
  · intro envs he hne hlen
    have h0 : envs.isEmpty = false := by
      simp [List.isEmpty_iff, hne]
    simp [step, rawStep, he, h0, hlen]

/-- An initialized single-env state used by the C6 witness. -/
def stOneEnv : EPState := ⟨some [⟨0, [], 0, 0⟩], some ⟨[[]], []⟩, (0, 0), "default"⟩

/-- Witness for C6: stepping the uninitialized state errors; stepping a
1-env pool with a 2-action batch errors. -/
theorem step_asserts_witness :
    step stNoEnvs [1] = .error "AssertionError: assert self._envs" ∧
    step stOneEnv [1, 2] = .error "AssertionError: assert len(actions) == len(self._envs)" :=
  ⟨(step_asserts_preconditions stNoEnvs [1]).1 rfl,
   (step_asserts_preconditions stOneEnv [1, 2]).2 [⟨0, [], 0, 0⟩] rfl
      (by decide) (by decide)⟩

/-- C8: for an initialized pool (envs present, trajectory store present
with matching batch size `N ≥ 1`), `reset(None)` succeeds, returns a batch
of observations whose first dimension is `N`, and resets every one of the
`N` environment slots (each env's reset count is bumped exactly once). -/
theorem reset_none_resets_all (st : EPState) (envs : List MockEnv) (bt : BatchTraj)
    (h1 : st.envs = some envs) (h2 : st.traj = some bt)
    (h3 : bt.slots.length = envs.length) (h4 : 0 < envs.length) :
    (reset st none).map (fun p => (p.1.envs, p.2.map List.length))
      = .ok (some (envs.map fun e => { e with resetCount := e.resetCount + 1 }),
             some envs.length) := by
  have hne : envs ≠ [] := List.ne_nil_of_length_pos h4
  have hEmpty : ¬ ((List.range bt.slots.length).isEmpty = true) := by
    simp only [List.isEmpty_iff, List.range_eq_nil]
    omega
  have hisE : ¬ (envs.isEmpty = true) := by
    simp [List.isEmpty_iff, hne]
  have hAny : ¬ ((List.range bt.slots.length).any
      (fun i => decide (envs.length ≤ i)) = true) := by
    rw [List.any_eq_true]
    push_neg
    intro i hi
    rw [List.mem_range, h3] at hi
    simp
    omega
  have hfold := foldl_set_map (fun e => (MockEnv.reset e).2) envs envs.length le_rfl
  rw [List.take_length, List.drop_length, List.append_nil] at hfold
  simp only [reset, h2, resetCore, rawReset, h1]
  rw [if_neg hEmpty, if_neg hisE, if_neg hAny]
  simp only [h2, Except.map]
  rw [Except.ok.injEq, Prod.mk.injEq]
  constructor
  · rw [h3]
    exact congrArg some hfold
  · simp [h3]

/-- A concrete initialized 1-env state for the C8 witness. -/
def c8State : EPState := ⟨some [⟨4, [], 0, 0⟩], some ⟨[[]], []⟩, (0, 0), "default"⟩

/-- Witness for C8: resetting the 1-env pool returns one observation and
bumps the single env's reset count. -/
theorem reset_none_resets_all_witness :
    (reset c8State none).map (fun p => (p.1.envs, p.2.map List.length))
      = .ok (some (([⟨4, [], 0, 0⟩] : List MockEnv).map fun e =>
          { e with resetCount := e.resetCount + 1 }), some 1) :=
  reset_none_resets_all c8State [⟨4, [], 0, 0⟩] ⟨[[]], []⟩ rfl rfl rfl
    (by decide)

/-- C5: during `generate_data`, shard `i < S` receives exactly the
completed trajectories whose index is congruent to `i` modulo the shard
count `S`, in index order (first conjunct); in particular the trajectory
at index `j` is written to shard `j % S` (second conjunct); and the shard
sizes differ pairwise by at most one trajectory (third conjunct). -/
theorem generate_data_round_robin {α : Type} (completed : List α) (S : ℕ)
    (hS : 0 < S) :
    (∀ i, i < S →
      shardContent completed S i
        = (List.range completed.length).filterMap
            (fun j => if j % S = i then completed[j]? else none)) ∧
    (∀ j, j < completed.length → ∀ x, completed[j]? = some x →
      x ∈ shardContent completed S (j % S)) ∧
    (∀ i₁, i₁ < S → ∀ i₂, i₂ < S →
      (shardContent completed S i₁).length
        ≤ (shardContent completed S i₂).length + 1) := by
  refine ⟨fun i hi => shardContent_eq_filterMap completed hi, ?_, ?_⟩
  · intro j hj x hx
    rw [shardContent_eq_filterMap completed (Nat.mod_lt j hS)]
    rw [List.mem_filterMap]
    exact ⟨j, List.mem_range.mpr hj, by rw [if_pos rfl]; exact hx⟩
  · intro i₁ h₁ i₂ h₂
    rw [shardContent_length completed h₁, shardContent_length completed h₂]
    split_ifs <;> omega

/-- Witness for C5 with three trajectories over two shards. -/
theorem generate_data_round_robin_witness :
    shardContent ([10, 20, 30] : List ℤ) 2 1
      = (List.range 3).filterMap
          (fun j => if j % 2 = 1 then ([10, 20, 30] : List ℤ)[j]? else none) ∧
    (20 : ℤ) ∈ shardContent ([10, 20, 30] : List ℤ) 2 (1 % 2) ∧
    (shardContent ([10, 20, 30] : List ℤ) 2 0).length
      ≤ (shardContent ([10, 20, 30] : List ℤ) 2 1).length + 1 := by
  have h := generate_data_round_robin ([10, 20, 30] : List ℤ) 2 (by decide)
  exact ⟨h.1 1 (by decide), h.2.1 1 (by decide) 20 rfl,
    h.2.2 0 (by decide) 1 (by decide)⟩

/-- The C3 scenario: one env scripted for a 3-step episode with known
actions `1, 2, 1` (chosen nonzero, avoiding the C2 truthiness bug),
raw rewards `3/2, -1/2, 2` and done flags `false, false, true`, with
reward range `[-2, 2]`. -/
def c3State : EPState :=
  ⟨some [⟨10, [(11, mkRat 3 2, false), (12, mkRat (-1) 2, false), (13, 2, true)], 0, 0⟩],
   some ⟨[[]], []⟩, (-2, 2), "default"⟩

/-- The C3 pipeline: reset, three steps with the scripted actions, then
force-complete all trajectories and export them with the identity
encodings (serialization to disk and decoding back through
`example_reading_spec` is an external byte-level identity on the record
fields, so reading a shard back is modelled as the records themselves). -/
def c3Run : Except String (List Record) :=
  match reset c3State none with
  | .error e => .error e
  | .ok (st1, _) =>
    match step st1 [1] with
    | .error e => .error e
    | .ok (st2, _, _, _) =>
      match step st2 [2] with
      | .error e => .error e
      | .ok (st3, _, _, _) =>
        match step st3 [1] with
        | .error e => .error e
        | .ok (st4, _, _, _) =>
          match st4.traj with
          | none => .error "uninitialized"
          | some bt =>
            .ok (genTimeSteps (fun a => [a]) (fun o => [o]) 9
                  bt.completeAll.completed)

/-- C3: the scripted 3-step episode exports four records (per C1, the
initial time-step plus one per step), and reading them back yields the
recorded sequence: the actions of records 0–2 are the stepped actions
`1, 2, 1`, and the (raw reward, done) fields of records 1–3 are the
stepped `(3/2, false), (-1/2, false), (2, true)`. -/
theorem c3_roundtrip :
    c3Run.toOption.map (fun recs =>
        (recs.length,
         (recs.take 3).map Record.action,
         (recs.drop 1).map Record.raw_reward,
         (recs.drop 1).map Record.done))
      = some (4, [[1], [2], [1]], [[mkRat 3 2], [mkRat (-1) 2], [2]], [[0], [0], [1]]) := by
  decide

end EnvProblem
